import Mathlib

/-!
Verification of the PhenoStore example application (phenostore-example-go).

The development shallowly embeds the parts of the Go source that the
specification's claims are about:

* `PatientSummary` (app, part_000): the four-way fan-out/join that loads a
  patient summary and resolves a single error in priority order
  (patient read > observations > conditions > care plans), with a special
  not-found rewording for the patient read.
* `Initialize` / `validatePhenoStoreURL` (app, part_001): environment-variable
  checks and URL validation.
* `CompleteActivity` (app, part_001): marking a care-plan activity completed
  and propagating the plan-level "completed" status.

Effects are made explicit: each goroutine's outcome (its `ResourceSet` or its
error) is an input to the pure join/resolution function; environment reads and
URL parsing are passed in as data; the scheduler of the fan-out/join is a small
step relation.
-/

namespace PhenoStore

/-- Error kinds surfaced by the SDK boundary: a distinguished "not found"
condition versus any other (transport/auth/server) failure.  In the Go source
the distinction is made by `phenostore.IsNotFound`. -/
inductive ErrKind where
  | notFound
  | transport
  deriving DecidableEq, Repr

/-- An SDK-level error: its kind plus its message text (the text that `%w`
wrapping would preserve). -/
structure Err where
  kind : ErrKind
  msg : String
  deriving DecidableEq, Repr

/-- `phenostore.IsNotFound` applied to a possibly-nil Go error: a nil error is
never "not found"; a non-nil error is "not found" exactly when its kind is. -/
def isNotFound : Option Err → Bool
  | some e => e.kind == ErrKind.notFound
  | none => false

/-- The error component of a task outcome: `patientErr` etc. in the source are
nil exactly when the call succeeded. -/
def errOf {α : Type} : Except Err α → Option Err
  | .error e => some e
  | .ok _ => none

/-- The joined outcomes of the four concurrent API calls in `PatientSummary`
(lines 44-65 of part_000): the patient read yields one resource, each of the
three searches yields a list of resources. -/
structure TaskOutcomes (ρ : Type) where
  patient : Except Err ρ
  observations : Except Err (List ρ)
  conditions : Except Err (List ρ)
  plans : Except Err (List ρ)

/-- The aggregate delivered to `fhir.PrintSummary` when every task succeeded:
one slot per task, in task order. -/
structure Summary (ρ : Type) where
  patient : ρ
  observations : List ρ
  conditions : List ρ
  plans : List ρ

/-- The slots of the aggregate, in the original task order; the patient slot is
the singleton resource set the read returned. -/
def Summary.slots {ρ : Type} (s : Summary ρ) : List (List ρ) :=
  [[s.patient], s.observations, s.conditions, s.plans]

/-- Lines 69-105 of `PatientSummary` (part_000), run after the join: the
not-found special case, then the priority-ordered error cascade, and on full
success the summary built from the four slots.  `.error m` models
`apiErr != nil` with message `m` (the summary is then never delivered);
`.ok` models the success path that prints the summary. -/
def patientSummaryRun {ρ : Type} (patientID : String) (o : TaskOutcomes ρ) :
    Except String (Summary ρ) :=
  if isNotFound (errOf o.patient) then
    .error ("patient " ++ patientID ++ " not found")
  else
    match o.patient with
    | .error e => .error ("reading patient: " ++ e.msg)
    | .ok p =>
      match o.observations with
      | .error e => .error ("loading observations: " ++ e.msg)
      | .ok os =>
        match o.conditions with
        | .error e => .error ("loading conditions: " ++ e.msg)
        | .ok cs =>
          match o.plans with
          | .error e => .error ("loading care plans: " ++ e.msg)
          | .ok ps =>
            .ok { patient := p, observations := os, conditions := cs, plans := ps }

/-- The per-task errors in priority (task) order. -/
def errList {ρ : Type} (o : TaskOutcomes ρ) : List (Option Err) :=
  [errOf o.patient, errOf o.observations, errOf o.conditions, errOf o.plans]

/-- First failing entry of an error list, with its index.  Follows the spec's
words: "the task with the highest priority (lowest index) among failed tasks". -/
def firstErr : List (Option Err) → Option (Nat × Err)
  | [] => none
  | some e :: _ => some (0, e)
  | none :: rest => (firstErr rest).map (fun p => (p.1 + 1, p.2))

/-- The highest-priority failed task of an invocation, with its error. -/
def highestFailed {ρ : Type} (o : TaskOutcomes ρ) : Option (Nat × Err) :=
  firstErr (errList o)

/-- The task labels, in task order, as they appear in the surfaced messages. -/
def taskLabel : Nat → String
  | 0 => "patient"
  | 1 => "observations"
  | 2 => "conditions"
  | _ => "care plans"

/-- The message the source folds around the error of task `i` (the not-found
rewording applies to the patient task only). -/
def messageFor (patientID : String) : Nat → Err → String
  | 0, e =>
    if e.kind == ErrKind.notFound then "patient " ++ patientID ++ " not found"
    else "reading patient: " ++ e.msg
  | 1, e => "loading observations: " ++ e.msg
  | 2, e => "loading conditions: " ++ e.msg
  | _, e => "loading care plans: " ++ e.msg

/-- The generic label-wrapped message for task `i`, without any not-found
rewording. -/
def genericMessageFor : Nat → Err → String
  | 0, e => "reading patient: " ++ e.msg
  | 1, e => "loading observations: " ++ e.msg
  | 2, e => "loading conditions: " ++ e.msg
  | _, e => "loading care plans: " ++ e.msg

/-- C1: whenever at least one of the four tasks fails, `PatientSummary`
surfaces exactly one error — the error of the highest-priority (lowest-index)
failed task, with that task's label folded into the message; every
lower-priority failure is discarded (the surfaced message depends only on the
selected task's error). -/
theorem run_selects_highest_priority_error {ρ : Type} (pid : String) (o : TaskOutcomes ρ)
    (h : (errList o).any Option.isSome = true) :
    ∃ i e, highestFailed o = some (i, e) ∧
      patientSummaryRun pid o = .error (messageFor pid i e) ∧
      ∃ pre post : String, messageFor pid i e = (pre ++ taskLabel i) ++ post := by
  obtain ⟨p, obs, cond, pl⟩ := o
  cases p with
  | error e =>
    obtain ⟨k, m⟩ := e
    cases k with
    | notFound =>
      exact ⟨0, ⟨ErrKind.notFound, m⟩, rfl, rfl, "", " " ++ pid ++ " not found", rfl⟩
    | transport =>
      exact ⟨0, ⟨ErrKind.transport, m⟩, rfl, rfl, "reading ", ": " ++ m, rfl⟩
  | ok pv =>
    cases obs with
    | error e =>
      exact ⟨1, e, rfl, rfl, "loading ", ": " ++ e.msg, rfl⟩
    | ok os =>
      cases cond with
      | error e =>
        exact ⟨2, e, rfl, rfl, "loading ", ": " ++ e.msg, rfl⟩
      | ok cs =>
        cases pl with
        | error e =>
          exact ⟨3, e, rfl, rfl, "loading ", ": " ++ e.msg, rfl⟩
        | ok ps =>
          simp [errList, errOf] at h

/-- Witness for C1 at the spec scenario: observations fail with
"connection reset", care plans fail with "timeout", patient and conditions
succeed — the observations error is selected. -/
theorem run_selects_highest_priority_error_witness :
    ((errList (⟨.ok "r", .error ⟨ErrKind.transport, "connection reset"⟩, .ok [],
        .error ⟨ErrKind.transport, "timeout"⟩⟩ : TaskOutcomes String)).any
        Option.isSome = true) ∧
    (∃ i e, highestFailed (⟨.ok "r", .error ⟨ErrKind.transport, "connection reset"⟩,
        .ok [], .error ⟨ErrKind.transport, "timeout"⟩⟩ : TaskOutcomes String) = some (i, e) ∧
      patientSummaryRun "p1" (⟨.ok "r", .error ⟨ErrKind.transport, "connection reset"⟩,
        .ok [], .error ⟨ErrKind.transport, "timeout"⟩⟩ : TaskOutcomes String) =
        .error (messageFor "p1" i e) ∧
      ∃ pre post : String, messageFor "p1" i e = (pre ++ taskLabel i) ++ post) :=
  ⟨rfl, run_selects_highest_priority_error "p1" _ rfl⟩

/-- C2: if the patient read failed with a NotFound-kind error, the surfaced
error is the domain-specific "patient <id> not found" message, whatever the
other three tasks did. -/
theorem run_notFound_rewording {ρ : Type} (pid : String) (o : TaskOutcomes ρ) (e : Err)
    (hp : errOf o.patient = some e) (hk : e.kind = ErrKind.notFound) :
    patientSummaryRun pid o = .error ("patient " ++ pid ++ " not found") := by
  unfold patientSummaryRun
  rw [hp]
  simp [isNotFound, hk]

/-- Witness for C2: patient read fails NotFound while observations fail with a
transport error; the not-found rewording still wins. -/
theorem run_notFound_rewording_witness :
    errOf (TaskOutcomes.patient (⟨.error ⟨ErrKind.notFound, "HTTP 404"⟩,
        .error ⟨ErrKind.transport, "connection reset"⟩, .ok [], .ok []⟩ :
        TaskOutcomes String)) = some ⟨ErrKind.notFound, "HTTP 404"⟩ ∧
    (⟨ErrKind.notFound, "HTTP 404"⟩ : Err).kind = ErrKind.notFound ∧
    patientSummaryRun "p1" (⟨.error ⟨ErrKind.notFound, "HTTP 404"⟩,
        .error ⟨ErrKind.transport, "connection reset"⟩, .ok [], .ok []⟩ :
        TaskOutcomes String) = .error ("patient " ++ "p1" ++ " not found") :=
  ⟨rfl, rfl, run_notFound_rewording "p1" _ _ rfl rfl⟩

/-- C3: if all four tasks succeed, the fetch returns no error and the
aggregate has exactly four populated slots, one per task, in the original
task order (patient, observations, conditions, care plans). -/
theorem run_all_success {ρ : Type} (pid : String) (p : ρ) (os cs ps : List ρ) :
    patientSummaryRun pid (⟨.ok p, .ok os, .ok cs, .ok ps⟩ : TaskOutcomes ρ) =
      .ok { patient := p, observations := os, conditions := cs, plans := ps } ∧
    (Summary.mk p os cs ps).slots = [[p], os, cs, ps] ∧
    (Summary.mk p os cs ps).slots.length = 4 :=
  ⟨rfl, rfl, rfl⟩

/-- C4: if any task fails, the fetch surfaces only an error and never delivers
a summary built from the result slots. -/
theorem run_no_partial_aggregate {ρ : Type} (pid : String) (o : TaskOutcomes ρ)
    (h : (errList o).any Option.isSome = true) :
    (∃ m, patientSummaryRun pid o = .error m) ∧ ∀ s, patientSummaryRun pid o ≠ .ok s := by
  obtain ⟨p, obs, cond, pl⟩ := o
  cases p with
  | error e =>
    obtain ⟨k, m⟩ := e
    cases k with
    | notFound => exact ⟨⟨_, rfl⟩, fun s hs => Except.noConfusion hs⟩
    | transport => exact ⟨⟨_, rfl⟩, fun s hs => Except.noConfusion hs⟩
  | ok pv =>
    cases obs with
    | error e => exact ⟨⟨_, rfl⟩, fun s hs => Except.noConfusion hs⟩
    | ok os =>
      cases cond with
      | error e => exact ⟨⟨_, rfl⟩, fun s hs => Except.noConfusion hs⟩
      | ok cs =>
        cases pl with
        | error e => exact ⟨⟨_, rfl⟩, fun s hs => Except.noConfusion hs⟩
        | ok ps => simp [errList, errOf] at h

/-- Witness for C4: only the care-plans task fails; no summary is delivered. -/
theorem run_no_partial_aggregate_witness :
    ((errList (⟨.ok "r", .ok [], .ok [], .error ⟨ErrKind.transport, "timeout"⟩⟩ :
        TaskOutcomes String)).any Option.isSome = true) ∧
    ((∃ m, patientSummaryRun "p1" (⟨.ok "r", .ok [], .ok [],
        .error ⟨ErrKind.transport, "timeout"⟩⟩ : TaskOutcomes String) = .error m) ∧
      ∀ s, patientSummaryRun "p1" (⟨.ok "r", .ok [], .ok [],
        .error ⟨ErrKind.transport, "timeout"⟩⟩ : TaskOutcomes String) ≠ .ok s) :=
  ⟨rfl, run_no_partial_aggregate "p1" _ rfl⟩

/-- C8: if the patient read did not fail with a NotFound-kind error, then
whatever failed — even a lower-priority search failing with a NotFound-kind
error — the surfaced error is the generic label-wrapped form of the
highest-priority failure, and it is never the "patient ... not found"
message. -/
theorem run_generic_wrap {ρ : Type} (pid : String) (o : TaskOutcomes ρ)
    (hnf : isNotFound (errOf o.patient) = false)
    (hfail : (errList o).any Option.isSome = true) :
    ∃ i e, highestFailed o = some (i, e) ∧
      patientSummaryRun pid o = .error (genericMessageFor i e) ∧
      genericMessageFor i e ≠ "patient " ++ pid ++ " not found" := by
  obtain ⟨p, obs, cond, pl⟩ := o
  cases p with
  | error e =>
    obtain ⟨k, m⟩ := e
    cases k with
    | notFound => exact Bool.noConfusion hnf
    | transport =>
      refine ⟨0, ⟨ErrKind.transport, m⟩, rfl, rfl, fun heq => ?_⟩
      have h1 : (genericMessageFor 0 ⟨ErrKind.transport, m⟩).data.head? = some 'r' := rfl
      have h2 : ("patient " ++ pid ++ " not found").data.head? = some 'p' := rfl
      rw [heq] at h1
      exact absurd (h1.symm.trans h2) (by decide)
  | ok pv =>
    cases obs with
    | error e =>
      refine ⟨1, e, rfl, rfl, fun heq => ?_⟩
      have h1 : (genericMessageFor 1 e).data.head? = some 'l' := rfl
      have h2 : ("patient " ++ pid ++ " not found").data.head? = some 'p' := rfl
      rw [heq] at h1
      exact absurd (h1.symm.trans h2) (by decide)
    | ok os =>
      cases cond with
      | error e =>
        refine ⟨2, e, rfl, rfl, fun heq => ?_⟩
        have h1 : (genericMessageFor 2 e).data.head? = some 'l' := rfl
        have h2 : ("patient " ++ pid ++ " not found").data.head? = some 'p' := rfl
        rw [heq] at h1
        exact absurd (h1.symm.trans h2) (by decide)
      | ok cs =>
        cases pl with
        | error e =>
          refine ⟨3, e, rfl, rfl, fun heq => ?_⟩
          have h1 : (genericMessageFor 3 e).data.head? = some 'l' := rfl
          have h2 : ("patient " ++ pid ++ " not found").data.head? = some 'p' := rfl
          rw [heq] at h1
          exact absurd (h1.symm.trans h2) (by decide)
        | ok ps => simp [errList, errOf] at hfail

/-- The join state of the fan-out (lines 37-65 of part_000): one slot per
goroutine-owned pair of variables (`patient`/`patientErr`, and so on); `none`
means that goroutine has not yet finished. -/
structure RunState (ρ : Type) where
  patientSlot : Option (Except Err ρ)
  observationsSlot : Option (Except Err (List ρ))
  conditionsSlot : Option (Except Err (List ρ))
  plansSlot : Option (Except Err (List ρ))

/-- The state right after `wg.Add(4)` and the four `go` statements: no task
has finished yet. -/
def initState (ρ : Type) : RunState ρ := ⟨none, none, none, none⟩

/-- Scheduler step of the fan-out: some still-running goroutine finishes and
writes its own slot (its result variable and its error variable).  `spec`
carries the outcome each of the four API calls produces.  There is no other
transition: in particular no transition cancels a sibling or erases a slot. -/
inductive Step {ρ : Type} (spec : TaskOutcomes ρ) : RunState ρ → RunState ρ → Prop
  | patient (s : RunState ρ) (h : s.patientSlot = none) :
      Step spec s { s with patientSlot := some spec.patient }
  | observations (s : RunState ρ) (h : s.observationsSlot = none) :
      Step spec s { s with observationsSlot := some spec.observations }
  | conditions (s : RunState ρ) (h : s.conditionsSlot = none) :
      Step spec s { s with conditionsSlot := some spec.conditions }
  | plans (s : RunState ρ) (h : s.plansSlot = none) :
      Step spec s { s with plansSlot := some spec.plans }

/-- The condition `wg.Wait()` unblocks on: all four goroutines have called
`wg.Done()`. -/
def allDone {ρ : Type} (s : RunState ρ) : Bool :=
  s.patientSlot.isSome && s.observationsSlot.isSome &&
    s.conditionsSlot.isSome && s.plansSlot.isSome

/-- The joined outcomes the code after `wg.Wait()` reads; available only when
every slot has been written. -/
def joinOutcome {ρ : Type} (s : RunState ρ) : Option (TaskOutcomes ρ) :=
  match s.patientSlot, s.observationsSlot, s.conditionsSlot, s.plansSlot with
  | some p, some o, some c, some l => some ⟨p, o, c, l⟩
  | _, _, _, _ => none

/-- The aggregation and error-selection logic, gated behind the join: it can
only consume a fully joined outcome. -/
def runAfterJoin {ρ : Type} (pid : String) (s : RunState ρ) :
    Option (Except String (Summary ρ)) :=
  (joinOutcome s).map (patientSummaryRun pid)

/-- Invariant of the fan-out: each slot is either still unwritten or holds
exactly the outcome of its own task. -/
theorem reach_inv {ρ : Type} (spec : TaskOutcomes ρ) (s : RunState ρ)
    (h : Relation.ReflTransGen (Step spec) (initState ρ) s) :
    (s.patientSlot = none ∨ s.patientSlot = some spec.patient) ∧
    (s.observationsSlot = none ∨ s.observationsSlot = some spec.observations) ∧
    (s.conditionsSlot = none ∨ s.conditionsSlot = some spec.conditions) ∧
    (s.plansSlot = none ∨ s.plansSlot = some spec.plans) := by
  induction h with
  | refl => exact ⟨Or.inl rfl, Or.inl rfl, Or.inl rfl, Or.inl rfl⟩
  | tail hab hbc ih =>
    obtain ⟨i1, i2, i3, i4⟩ := ih
    cases hbc with
    | patient h => exact ⟨Or.inr rfl, i2, i3, i4⟩
    | observations h => exact ⟨i1, Or.inr rfl, i3, i4⟩
    | conditions h => exact ⟨i1, i2, Or.inr rfl, i4⟩
    | plans h => exact ⟨i1, i2, i3, Or.inr rfl⟩

/-- C5: the join is unconditional.  In every reachable state of the fan-out,
the run is stuck exactly when all four tasks have finished (so a failing task
never cancels a sibling — as long as some task is unfinished it can still
complete, whatever the other outcomes are); once all are done, the joined
outcome is exactly the four tasks' outcomes; and the aggregation and
error-selection logic produces a value exactly when all four tasks have
produced a result or an error. -/
theorem join_unconditional {ρ : Type} (spec : TaskOutcomes ρ) (s : RunState ρ)
    (hreach : Relation.ReflTransGen (Step spec) (initState ρ) s) :
    ((¬ ∃ t, Step spec s t) ↔ allDone s = true) ∧
    (allDone s = true → joinOutcome s = some spec) ∧
    (∀ pid, runAfterJoin pid s =
      if allDone s = true then some (patientSummaryRun pid spec) else none) := by
  obtain ⟨i1, i2, i3, i4⟩ := reach_inv spec s hreach
  have hjoin : allDone s = true → joinOutcome s = some spec := by
    intro hdone
    simp only [allDone, Bool.and_eq_true, Option.isSome_iff_ne_none] at hdone
    obtain ⟨⟨⟨hp, ho⟩, hc⟩, hl⟩ := hdone
    obtain hps := i1.resolve_left hp
    obtain hos := i2.resolve_left ho
    obtain hcs := i3.resolve_left hc
    obtain hls := i4.resolve_left hl
    simp [joinOutcome, hps, hos, hcs, hls]
  have hnotdone : allDone s = false → joinOutcome s = none := by
    obtain ⟨ps, os, cs, ls⟩ := s
    rcases ps with _ | p <;> rcases os with _ | o <;> rcases cs with _ | c <;>
      rcases ls with _ | l <;> simp [joinOutcome, allDone]
  refine ⟨⟨?_, ?_⟩, hjoin, ?_⟩
  · intro hstuck
    rcases hp : s.patientSlot with _ | vp
    · exact absurd ⟨_, Step.patient s hp⟩ hstuck
    rcases ho : s.observationsSlot with _ | vo
    · exact absurd ⟨_, Step.observations s ho⟩ hstuck
    rcases hc : s.conditionsSlot with _ | vc
    · exact absurd ⟨_, Step.conditions s hc⟩ hstuck
    rcases hl : s.plansSlot with _ | vl
    · exact absurd ⟨_, Step.plans s hl⟩ hstuck
    simp [allDone, hp, ho, hc, hl]
  · rintro hdone ⟨t, hstep⟩
    cases hstep <;> simp_all [allDone]
  · intro pid
    cases hd : allDone s with
    | false => simp [runAfterJoin, hnotdone hd]
    | true => simp [runAfterJoin, hjoin hd]

/-- Witness for C5: a full run in which the patient read fails yet every other
task still completes; at the final state the join has all four outcomes. -/
theorem join_unconditional_witness :
    Relation.ReflTransGen
      (Step (⟨.error ⟨ErrKind.notFound, "HTTP 404"⟩, .ok [], .ok [], .ok []⟩ :
        TaskOutcomes String))
      (initState String)
      (⟨some (.error ⟨ErrKind.notFound, "HTTP 404"⟩), some (.ok []), some (.ok []),
        some (.ok [])⟩ : RunState String) ∧
    (((¬ ∃ t, Step (⟨.error ⟨ErrKind.notFound, "HTTP 404"⟩, .ok [], .ok [], .ok []⟩ :
        TaskOutcomes String)
        (⟨some (.error ⟨ErrKind.notFound, "HTTP 404"⟩), some (.ok []), some (.ok []),
          some (.ok [])⟩ : RunState String) t) ↔
      allDone (⟨some (.error ⟨ErrKind.notFound, "HTTP 404"⟩), some (.ok []),
        some (.ok []), some (.ok [])⟩ : RunState String) = true) ∧
    (allDone (⟨some (.error ⟨ErrKind.notFound, "HTTP 404"⟩), some (.ok []),
        some (.ok []), some (.ok [])⟩ : RunState String) = true →
      joinOutcome (⟨some (.error ⟨ErrKind.notFound, "HTTP 404"⟩), some (.ok []),
        some (.ok []), some (.ok [])⟩ : RunState String) =
        some ⟨.error ⟨ErrKind.notFound, "HTTP 404"⟩, .ok [], .ok [], .ok []⟩) ∧
    (∀ pid, runAfterJoin pid (⟨some (.error ⟨ErrKind.notFound, "HTTP 404"⟩),
        some (.ok []), some (.ok []), some (.ok [])⟩ : RunState String) =
      if allDone (⟨some (.error ⟨ErrKind.notFound, "HTTP 404"⟩), some (.ok []),
          some (.ok []), some (.ok [])⟩ : RunState String) = true then
        some (patientSummaryRun pid
          (⟨.error ⟨ErrKind.notFound, "HTTP 404"⟩, .ok [], .ok [], .ok []⟩ :
            TaskOutcomes String))
      else none)) := by
  have hreach : Relation.ReflTransGen
      (Step (⟨.error ⟨ErrKind.notFound, "HTTP 404"⟩, .ok [], .ok [], .ok []⟩ :
        TaskOutcomes String))
      (initState String)
      (⟨some (.error ⟨ErrKind.notFound, "HTTP 404"⟩), some (.ok []), some (.ok []),
        some (.ok [])⟩ : RunState String) :=
    Relation.ReflTransGen.tail
      (Relation.ReflTransGen.tail
        (Relation.ReflTransGen.tail
          (Relation.ReflTransGen.tail Relation.ReflTransGen.refl
            (Step.patient _ rfl))
          (Step.observations _ rfl))
        (Step.conditions _ rfl))
      (Step.plans _ rfl)
  exact ⟨hreach, join_unconditional _ _ hreach⟩

/-- The slots of a join state viewed uniformly, indexed in task order; indices
past the four tasks hold nothing. -/
def RunState.slotAt {ρ : Type} (s : RunState ρ) :
    Nat → Option (Except Err ρ ⊕ Except Err (List ρ))
  | 0 => s.patientSlot.map Sum.inl
  | 1 => s.observationsSlot.map Sum.inr
  | 2 => s.conditionsSlot.map Sum.inr
  | 3 => s.plansSlot.map Sum.inr
  | _ + 4 => none

/-- The outcome each task would write, viewed uniformly by task index. -/
def TaskOutcomes.outcomeAt {ρ : Type} (o : TaskOutcomes ρ) :
    Nat → Option (Except Err ρ ⊕ Except Err (List ρ))
  | 0 => some (Sum.inl o.patient)
  | 1 => some (Sum.inr o.observations)
  | 2 => some (Sum.inr o.conditions)
  | 3 => some (Sum.inr o.plans)
  | _ + 4 => none

/-- C6: slot disjointness.  Every transition of the fan-out writes exactly one
slot — the finishing task's own, previously unwritten, now holding that task's
own outcome — and leaves every other slot untouched; and in any completed run
each of the four slots holds exactly its own task's outcome. -/
theorem slot_disjointness {ρ : Type} (spec : TaskOutcomes ρ) :
    (∀ s t, Step spec s t → ∃ i, i < 4 ∧ s.slotAt i = none ∧
      t.slotAt i = spec.outcomeAt i ∧ ∀ j, j ≠ i → t.slotAt j = s.slotAt j) ∧
    (∀ s, Relation.ReflTransGen (Step spec) (initState ρ) s → allDone s = true →
      ∀ i, i < 4 → s.slotAt i = spec.outcomeAt i) := by
  constructor
  · intro s t hstep
    cases hstep with
    | patient h =>
      refine ⟨0, by omega, by simp [RunState.slotAt, h], rfl, ?_⟩
      rintro (_ | _ | _ | _ | j) hj
      · exact absurd rfl hj
      · rfl
      · rfl
      · rfl
      · rfl
    | observations h =>
      refine ⟨1, by omega, by simp [RunState.slotAt, h], rfl, ?_⟩
      rintro (_ | _ | _ | _ | j) hj
      · rfl
      · exact absurd rfl hj
      · rfl
      · rfl
      · rfl
    | conditions h =>
      refine ⟨2, by omega, by simp [RunState.slotAt, h], rfl, ?_⟩
      rintro (_ | _ | _ | _ | j) hj
      · rfl
      · rfl
      · exact absurd rfl hj
      · rfl
      · rfl
    | plans h =>
      refine ⟨3, by omega, by simp [RunState.slotAt, h], rfl, ?_⟩
      rintro (_ | _ | _ | _ | j) hj
      · rfl
      · rfl
      · rfl
      · exact absurd rfl hj
      · rfl
  · intro s hreach hdone i hi
    obtain ⟨i1, i2, i3, i4⟩ := reach_inv spec s hreach
    simp only [allDone, Bool.and_eq_true, Option.isSome_iff_ne_none] at hdone
    obtain ⟨⟨⟨hp, ho⟩, hc⟩, hl⟩ := hdone
    obtain hps := i1.resolve_left hp
    obtain hos := i2.resolve_left ho
    obtain hcs := i3.resolve_left hc
    obtain hls := i4.resolve_left hl
    match i, hi with
    | 0, _ => simp [RunState.slotAt, TaskOutcomes.outcomeAt, hps]
    | 1, _ => simp [RunState.slotAt, TaskOutcomes.outcomeAt, hos]
    | 2, _ => simp [RunState.slotAt, TaskOutcomes.outcomeAt, hcs]
    | 3, _ => simp [RunState.slotAt, TaskOutcomes.outcomeAt, hls]

/-- Witness for C6: the patient goroutine finishing from the initial state
writes exactly the patient slot and no other. -/
theorem slot_disjointness_witness :
    ∃ i, i < 4 ∧ (initState String).slotAt i = none ∧
      RunState.slotAt (⟨some (.ok "r"), none, none, none⟩ : RunState String) i =
        TaskOutcomes.outcomeAt
          (⟨.ok "r", .ok ["o"], .ok [], .ok []⟩ : TaskOutcomes String) i ∧
      ∀ j, j ≠ i →
        RunState.slotAt (⟨some (.ok "r"), none, none, none⟩ : RunState String) j =
          (initState String).slotAt j :=
  (slot_disjointness (⟨.ok "r", .ok ["o"], .ok [], .ok []⟩ : TaskOutcomes String)).1
    _ _ (Step.patient _ rfl)

/-- Durations of the four concurrent API calls, in abstract time units. -/
structure Durations where
  patient : Nat
  observations : Nat
  conditions : Nat
  plans : Nat

/-- `start := time.Now()` is taken right before the four `go` statements, so
in the idealized timed model every task begins at time 0. -/
def launchTime : Nat := 0

/-- `wg.Wait()` returns when the last goroutine finishes: the join happens at
the latest of the four finish times. -/
def joinTime (d : Durations) : Nat :=
  max (max (max (launchTime + d.patient) (launchTime + d.observations))
    (launchTime + d.conditions)) (launchTime + d.plans)

/-- `elapsed = time.Since(start)` is taken immediately after the join. -/
def elapsed (d : Durations) : Nat := joinTime d - launchTime

/-- C7: in the idealized timed model of the fan-out (all tasks start when
launched, the join completes with the last finisher, no scheduling overhead),
the reported elapsed duration is exactly the maximum of the four task
durations; it is bounded by their sum and in general falls short of it. -/
theorem elapsed_reflects_max (d : Durations) :
    elapsed d = max (max (max d.patient d.observations) d.conditions) d.plans ∧
    elapsed d ≤ d.patient + d.observations + d.conditions + d.plans ∧
    ∃ e : Durations, elapsed e < e.patient + e.observations + e.conditions + e.plans := by
  refine ⟨?_, ?_, ⟨⟨1, 1, 1, 1⟩, by decide⟩⟩
  · simp [elapsed, joinTime, launchTime]
  · simp only [elapsed, joinTime, launchTime, Nat.zero_add, Nat.sub_zero, max_le_iff]
    omega

/-- Witness for C8: patient read succeeds while the observations search fails
with a NotFound-kind error; the surfaced error is the generic wrapped one. -/
theorem run_generic_wrap_witness :
    (isNotFound (errOf (TaskOutcomes.patient (⟨.ok "r",
        .error ⟨ErrKind.notFound, "HTTP 404"⟩, .ok [], .ok []⟩ :
        TaskOutcomes String))) = false) ∧
    ((errList (⟨.ok "r", .error ⟨ErrKind.notFound, "HTTP 404"⟩, .ok [], .ok []⟩ :
        TaskOutcomes String)).any Option.isSome = true) ∧
    (∃ i e, highestFailed (⟨.ok "r", .error ⟨ErrKind.notFound, "HTTP 404"⟩,
        .ok [], .ok []⟩ : TaskOutcomes String) = some (i, e) ∧
      patientSummaryRun "p1" (⟨.ok "r", .error ⟨ErrKind.notFound, "HTTP 404"⟩,
        .ok [], .ok []⟩ : TaskOutcomes String) = .error (genericMessageFor i e) ∧
      genericMessageFor i e ≠ "patient " ++ "p1" ++ " not found") :=
  ⟨rfl, rfl, run_generic_wrap "p1" _ rfl rfl⟩

/-- A parsed URL as Go's net/url exposes it to `validatePhenoStoreURL`:
`Scheme`, `Host`, and `Hostname()` (the host with any port and IPv6 brackets
stripped).  Parsing itself is the standard library's and is passed in as a
function; `none` models a parse error. -/
structure GoURL where
  scheme : String
  host : String
  hostname : String

/-- `validatePhenoStoreURL` (part_001 lines 74-91): reject unparsable URLs and
URLs without scheme or host; accept https; accept http only on a loopback
hostname; reject everything else. -/
def validatePhenoStoreURL (parse : String → Option GoURL) (rawURL : String) :
    Option String :=
  match parse rawURL with
  | none => some "invalid PHENOSTORE_URL: must be an absolute URL"
  | some parsed =>
    if parsed.scheme = "" ∨ parsed.host = "" then
      some "invalid PHENOSTORE_URL: must be an absolute URL"
    else if parsed.scheme.toLower = "https" then none
    else if parsed.scheme.toLower = "http" then
      if parsed.hostname.toLower = "localhost" ∨ parsed.hostname.toLower = "127.0.0.1" ∨
          parsed.hostname.toLower = "::1" then none
      else some "invalid PHENOSTORE_URL: must use https (http is only allowed for localhost)"
    else some "invalid PHENOSTORE_URL: must use https (http is only allowed for localhost)"

/-- The five environment variables `Initialize` reads (after `godotenv.Load`);
Go's `os.Getenv` yields "" for unset variables. -/
structure Env where
  url : String
  clientID : String
  clientSecret : String
  tenant : String
  store : String

/-- `Initialize` (part_001 lines 24-47): check the five variables for
emptiness, validate the URL, then create the client.  `.ok c` models the path
that assigns `a.Client = client`; `.error` models every early return, on which
the client field is never assigned.  `newClient` is the outcome of the SDK's
`phenostore.NewClient`. -/
def Initialize {κ : Type} (env : Env) (parse : String → Option GoURL)
    (newClient : Except String κ) : Except String κ :=
  if env.url = "" ∨ env.clientID = "" ∨ env.clientSecret = "" ∨ env.tenant = "" ∨
      env.store = "" then
    .error "missing required environment variables: PHENOSTORE_URL, PHENOSTORE_CLIENT_ID, PHENOSTORE_CLIENT_SECRET, PHENOSTORE_TENANT, PHENOSTORE_STORE"
  else
    match validatePhenoStoreURL parse env.url with
    | some m => .error m
    | none =>
      match newClient with
      | .error e => .error ("creating client: " ++ e)
      | .ok c => .ok c

/-- The URLs the claim says are accepted: https, or http on a loopback host. -/
def acceptedURL (u : GoURL) : Prop :=
  u.scheme.toLower = "https" ∨
    (u.scheme.toLower = "http" ∧
      (u.hostname.toLower = "localhost" ∨ u.hostname.toLower = "127.0.0.1" ∨
        u.hostname.toLower = "::1"))

/-- C9: the URL validation passes exactly on absolute URLs (parse succeeds
with nonempty scheme and host) that are https, or http on localhost,
127.0.0.1 or ::1; and `Initialize` returns an error — never setting the
client — whenever one of the five variables is empty or no acceptable parse of
the URL exists. -/
theorem initialize_validation {κ : Type} (env : Env) (parse : String → Option GoURL)
    (newClient : Except String κ) :
    (validatePhenoStoreURL parse env.url = none ↔
      ∃ u, parse env.url = some u ∧ u.scheme ≠ "" ∧ u.host ≠ "" ∧ acceptedURL u) ∧
    ((env.url = "" ∨ env.clientID = "" ∨ env.clientSecret = "" ∨ env.tenant = "" ∨
        env.store = "" ∨
        (∀ u, parse env.url = some u → u.scheme = "" ∨ u.host = "" ∨ ¬acceptedURL u)) →
      ∃ m, Initialize env parse newClient = .error m) := by
  have hiff : validatePhenoStoreURL parse env.url = none ↔
      ∃ u, parse env.url = some u ∧ u.scheme ≠ "" ∧ u.host ≠ "" ∧ acceptedURL u := by
    cases hp : parse env.url with
    | none =>
      constructor
      · intro h
        exact absurd h (by simp [validatePhenoStoreURL, hp])
      · rintro ⟨u, hu, -⟩
        exact Option.noConfusion hu
    | some u =>
      unfold validatePhenoStoreURL
      rw [hp]
      simp only [Option.some.injEq]
      constructor
      · intro h
        by_cases h1 : u.scheme = "" ∨ u.host = ""
        · rw [if_pos h1] at h
          exact absurd h (by simp)
        · rw [if_neg h1] at h
          push_neg at h1
          by_cases h2 : u.scheme.toLower = "https"
          · exact ⟨u, rfl, h1.1, h1.2, Or.inl h2⟩
          · rw [if_neg h2] at h
            by_cases h3 : u.scheme.toLower = "http"
            · rw [if_pos h3] at h
              by_cases h4 : u.hostname.toLower = "localhost" ∨
                  u.hostname.toLower = "127.0.0.1" ∨ u.hostname.toLower = "::1"
              · exact ⟨u, rfl, h1.1, h1.2, Or.inr ⟨h3, h4⟩⟩
              · rw [if_neg h4] at h
                exact absurd h (by simp)
            · rw [if_neg h3] at h
              exact absurd h (by simp)
      · rintro ⟨u', hu', hs, hh, hacc⟩
        cases hu'
        have h1 : ¬(u.scheme = "" ∨ u.host = "") := by tauto
        rw [if_neg h1]
        rcases hacc with h2 | ⟨h2, h3⟩
        · rw [if_pos h2]
        · rw [if_neg ?hns, if_pos h2, if_pos h3]
          case hns =>
            intro hhttps
            rw [hhttps] at h2
            exact absurd h2 (by decide)
  refine ⟨hiff, ?_⟩
  intro h
  unfold Initialize
  by_cases hempty : env.url = "" ∨ env.clientID = "" ∨ env.clientSecret = "" ∨
      env.tenant = "" ∨ env.store = ""
  · rw [if_pos hempty]
    exact ⟨_, rfl⟩
  · rw [if_neg hempty]
    have hbad : ∀ u, parse env.url = some u →
        u.scheme = "" ∨ u.host = "" ∨ ¬acceptedURL u := by
      rcases h with h | h | h | h | h | h
      · exact absurd (Or.inl h) hempty
      · exact absurd (Or.inr (Or.inl h)) hempty
      · exact absurd (Or.inr (Or.inr (Or.inl h))) hempty
      · exact absurd (Or.inr (Or.inr (Or.inr (Or.inl h)))) hempty
      · exact absurd (Or.inr (Or.inr (Or.inr (Or.inr h)))) hempty
      · exact h
    have hne : validatePhenoStoreURL parse env.url ≠ none := by
      intro hnone
      obtain ⟨u, hu, hs, hh, hacc⟩ := hiff.mp hnone
      rcases hbad u hu with hb | hb | hb
      exacts [hs hb, hh hb, hb hacc]
    obtain ⟨m, hm⟩ := Option.ne_none_iff_exists'.mp hne
    rw [hm]
    exact ⟨m, rfl⟩

/-- Witness for C9: with an empty PHENOSTORE_URL, `Initialize` reports an
error and the client is never set. -/
theorem initialize_validation_witness :
    ∃ m, Initialize ⟨"", "id", "secret", "tenant", "store"⟩
      (fun _ => (none : Option GoURL))
      (Except.ok "client" : Except String String) = .error m :=
  (initialize_validation ⟨"", "id", "secret", "tenant", "store"⟩
    (fun _ => (none : Option GoURL))
    (Except.ok "client" : Except String String)).2 (Or.inl rfl)

/-- The `detail` object of a care-plan activity as `CompleteActivity` reads
it: `status` and `description` read as "" when absent or not a string. -/
structure Detail where
  status : String
  description : String
  deriving DecidableEq, Repr

/-- One entry of the care plan's `activity` array: either a value that is not
an object carrying a `detail` object (skipped by the selection UI and never
counted as completed by the scan), or one with its detail. -/
inductive Activity where
  | other
  | withDetail (detail : Detail)
  deriving DecidableEq, Repr

/-- One activity's completedness as the scan on lines 451-459 reads it:
`s, _ := d["status"].(string); s != "completed"` — a missing or malformed
detail reads as "" and is therefore not completed. -/
def detailCompleted : Activity → Bool
  | .other => false
  | .withDetail d => d.status == "completed"

/-- `detail["status"] = "completed"` applied to the selected activity.  The
selection UI only offers activities that have a detail object, so `other` is
never selected (on it the Go code would write to a nil map). -/
def markCompleted : Activity → Activity
  | .other => .other
  | .withDetail d => .withDetail { d with status := "completed" }

/-- The parts of the care-plan JSON object that `CompleteActivity` touches:
the top-level `status` and the `activity` array. -/
structure CarePlan where
  status : String
  activity : List Activity
  deriving DecidableEq, Repr

/-- Lines 446-464 of part_001 (`CompleteActivity`): mark the selected
activity's detail status completed in place, rescan all activities, and set
the plan's top-level status to "completed" exactly when the scan finds every
activity completed; the resulting plan is what the update sends. -/
def completeActivityUpdate (plan : CarePlan) (idx : Nat) : CarePlan :=
  let acts := plan.activity.set idx (markCompleted (plan.activity.getD idx .other))
  let done := acts.all detailCompleted
  { status := if done then "completed" else plan.status, activity := acts }

/-- C10: the update `CompleteActivity` sends marks exactly the selected
activity's detail completed (same length, other entries untouched), and its
top-level status is "completed" if every activity of the marked plan has
detail status completed, and is the unchanged original status otherwise. -/
theorem completeActivity_status (plan : CarePlan) (idx : Nat) (d : Detail)
    (h : idx < plan.activity.length)
    (hd : plan.activity.getD idx .other = .withDetail d) :
    (completeActivityUpdate plan idx).activity.length = plan.activity.length ∧
    (completeActivityUpdate plan idx).activity.getD idx .other =
      .withDetail { d with status := "completed" } ∧
    (∀ j, j ≠ idx → (completeActivityUpdate plan idx).activity.getD j .other =
      plan.activity.getD j .other) ∧
    ((completeActivityUpdate plan idx).status =
      if ∀ a ∈ (completeActivityUpdate plan idx).activity, detailCompleted a = true
      then "completed" else plan.status) := by
  have hidx : plan.activity[idx] = Activity.withDetail d := by
    rwa [List.getD_eq_getElem?_getD, List.getElem?_eq_getElem h, Option.getD_some] at hd
  refine ⟨by simp [completeActivityUpdate], ?_, ?_, ?_⟩
  · simp [completeActivityUpdate, List.getD_eq_getElem?_getD,
      List.getElem?_set_self, h, hd, hidx, markCompleted]
  · intro j hj
    simp [completeActivityUpdate, List.getD_eq_getElem?_getD,
      List.getElem?_set_ne (Ne.symm hj)]
  · have hstat : (completeActivityUpdate plan idx).status =
        if (plan.activity.set idx
          (markCompleted (plan.activity.getD idx Activity.other))).all detailCompleted
        then "completed" else plan.status := rfl
    have hacts : (completeActivityUpdate plan idx).activity =
        plan.activity.set idx (markCompleted (plan.activity.getD idx Activity.other)) := rfl
    rw [hstat, hacts]
    by_cases hc : ∀ a ∈ plan.activity.set idx
        (markCompleted (plan.activity.getD idx Activity.other)), detailCompleted a = true
    · rw [if_pos hc, if_pos (List.all_eq_true.mpr hc)]
    · rw [if_neg hc, if_neg (fun hb => hc (List.all_eq_true.mp hb))]

/-- Witness for C10: completing the one remaining activity of a two-activity
plan; the top-level status rule is exercised at a concrete plan. -/
theorem completeActivity_status_witness :
    1 < (CarePlan.mk "active" [Activity.withDetail ⟨"completed", "exercise"⟩,
        Activity.withDetail ⟨"in-progress", "diet"⟩]).activity.length ∧
    (CarePlan.mk "active" [Activity.withDetail ⟨"completed", "exercise"⟩,
        Activity.withDetail ⟨"in-progress", "diet"⟩]).activity.getD 1 Activity.other =
      Activity.withDetail ⟨"in-progress", "diet"⟩ ∧
    (completeActivityUpdate (CarePlan.mk "active"
        [Activity.withDetail ⟨"completed", "exercise"⟩,
         Activity.withDetail ⟨"in-progress", "diet"⟩]) 1).status =
      (if ∀ a ∈ (completeActivityUpdate (CarePlan.mk "active"
            [Activity.withDetail ⟨"completed", "exercise"⟩,
             Activity.withDetail ⟨"in-progress", "diet"⟩]) 1).activity,
          detailCompleted a = true then "completed"
        else (CarePlan.mk "active" [Activity.withDetail ⟨"completed", "exercise"⟩,
          Activity.withDetail ⟨"in-progress", "diet"⟩]).status) :=
  ⟨by decide, rfl,
    (completeActivity_status (CarePlan.mk "active"
        [Activity.withDetail ⟨"completed", "exercise"⟩,
         Activity.withDetail ⟨"in-progress", "diet"⟩]) 1 ⟨"in-progress", "diet"⟩
      (by decide) rfl).2.2.2⟩

end PhenoStore
